import Mathlib

/-!
Verification development for the tnt-menu-scraper repository
(src/scraper.py).  The Python functions `extract_menu_data`,
`process_menu_data`, `merge_data`, `download_image` and `fetch_html`
are shallowly embedded as executable Lean definitions; the library
calls they make (json, re, os.path, mimetypes, pandas, requests,
tenacity) are modelled at the granularity the repository uses them.
-/

/-- Model of a parsed Python JSON value (result of `json.loads`).
Numbers are kept as their source lexemes: no claim depends on numeric
coercion. -/
inductive Json where
  | null
  | bool (b : Bool)
  | num (lexeme : String)
  | str (s : String)
  | arr (elems : List Json)
  | obj (fields : List (String × Json))
deriving Repr

mutual

def Json.decEq : (a b : Json) → Decidable (a = b)
  | .null, .null => isTrue rfl
  | .bool x, .bool y =>
    if h : x = y then isTrue (by rw [h]) else isFalse (by intro hc; injection hc; contradiction)
  | .num x, .num y =>
    if h : x = y then isTrue (by rw [h]) else isFalse (by intro hc; injection hc; contradiction)
  | .str x, .str y =>
    if h : x = y then isTrue (by rw [h]) else isFalse (by intro hc; injection hc; contradiction)
  | .arr xs, .arr ys =>
    match Json.decEqList xs ys with
    | isTrue h => isTrue (by rw [h])
    | isFalse h => isFalse (by intro hc; injection hc; contradiction)
  | .obj xs, .obj ys =>
    match Json.decEqFields xs ys with
    | isTrue h => isTrue (by rw [h])
    | isFalse h => isFalse (by intro hc; injection hc; contradiction)
  | .null, .bool _ => isFalse (fun h => nomatch h)
  | .null, .num _ => isFalse (fun h => nomatch h)
  | .null, .str _ => isFalse (fun h => nomatch h)
  | .null, .arr _ => isFalse (fun h => nomatch h)
  | .null, .obj _ => isFalse (fun h => nomatch h)
  | .bool _, .null => isFalse (fun h => nomatch h)
  | .bool _, .num _ => isFalse (fun h => nomatch h)
  | .bool _, .str _ => isFalse (fun h => nomatch h)
  | .bool _, .arr _ => isFalse (fun h => nomatch h)
  | .bool _, .obj _ => isFalse (fun h => nomatch h)
  | .num _, .null => isFalse (fun h => nomatch h)
  | .num _, .bool _ => isFalse (fun h => nomatch h)
  | .num _, .str _ => isFalse (fun h => nomatch h)
  | .num _, .arr _ => isFalse (fun h => nomatch h)
  | .num _, .obj _ => isFalse (fun h => nomatch h)
  | .str _, .null => isFalse (fun h => nomatch h)
  | .str _, .bool _ => isFalse (fun h => nomatch h)
  | .str _, .num _ => isFalse (fun h => nomatch h)
  | .str _, .arr _ => isFalse (fun h => nomatch h)
  | .str _, .obj _ => isFalse (fun h => nomatch h)
  | .arr _, .null => isFalse (fun h => nomatch h)
  | .arr _, .bool _ => isFalse (fun h => nomatch h)
  | .arr _, .num _ => isFalse (fun h => nomatch h)
  | .arr _, .str _ => isFalse (fun h => nomatch h)
  | .arr _, .obj _ => isFalse (fun h => nomatch h)
  | .obj _, .null => isFalse (fun h => nomatch h)
  | .obj _, .bool _ => isFalse (fun h => nomatch h)
  | .obj _, .num _ => isFalse (fun h => nomatch h)
  | .obj _, .str _ => isFalse (fun h => nomatch h)
  | .obj _, .arr _ => isFalse (fun h => nomatch h)

def Json.decEqList : (xs ys : List Json) → Decidable (xs = ys)
  | [], [] => isTrue rfl
  | [], _ :: _ => isFalse (fun h => nomatch h)
  | _ :: _, [] => isFalse (fun h => nomatch h)
  | x :: xs, y :: ys =>
    match Json.decEq x y with
    | isFalse h => isFalse (by intro hc; injection hc; contradiction)
    | isTrue h1 =>
      match Json.decEqList xs ys with
      | isTrue h2 => isTrue (by rw [h1, h2])
      | isFalse h => isFalse (by intro hc; injection hc; contradiction)

def Json.decEqFields : (xs ys : List (String × Json)) → Decidable (xs = ys)
  | [], [] => isTrue rfl
  | [], _ :: _ => isFalse (fun h => nomatch h)
  | _ :: _, [] => isFalse (fun h => nomatch h)
  | (k1, v1) :: xs, (k2, v2) :: ys =>
    if hk : k1 = k2 then
      match Json.decEq v1 v2 with
      | isFalse h => isFalse (by intro hc; injection hc with hp ht; injection hp; contradiction)
      | isTrue h1 =>
        match Json.decEqFields xs ys with
        | isTrue h2 => isTrue (by rw [hk, h1, h2])
        | isFalse h => isFalse (by intro hc; injection hc; contradiction)
    else isFalse (by intro hc; injection hc with hp ht; injection hp; contradiction)

end

instance : DecidableEq Json := Json.decEq

/-- Whether a JSON number lexeme denotes zero: every digit of the mantissa
(the part before any exponent) is `0`.  Used only for Python truthiness. -/
def zeroLexeme (lx : String) : Bool :=
  (lx.data.takeWhile (fun c => !(c == 'e') && !(c == 'E'))).all
    (fun c => !c.isDigit || c == '0')

/-- Python falsiness (`not x`) of a parsed JSON value: `None`, `False`,
zero numbers, and empty strings/lists/dicts are falsy. -/
def Json.falsy : Json → Bool
  | .null => true
  | .bool b => !b
  | .num lx => zeroLexeme lx
  | .str s => s == ""
  | .arr xs => xs.isEmpty
  | .obj fs => fs.isEmpty

/-- Dictionary lookup on the field list of a parsed JSON object
(the parser keeps keys unique, mirroring a Python dict). -/
def lookupKey (k : String) (fs : List (String × Json)) : Option Json :=
  match fs.find? (fun p => p.1 == k) with
  | some p => some p.2
  | none => none

/-- `item.get(k)`: Python's `dict.get` returns `None` both for a missing
key and for a key whose value is JSON `null`; both map to `none`. -/
def pyGet (k : String) (fs : List (String × Json)) : Option Json :=
  match lookupKey k fs with
  | some Json.null => none
  | some v => some v
  | none => none

/-- One normalized menu item, the dictionary built by `process_menu_data`
(src/scraper.py lines 86-95): a fixed field set, each field `None` when
the raw record lacks it. -/
structure MenuItem where
  id : Option Json
  name : Option Json
  description : Option Json
  price : Option Json
  originalSection : Option Json
  image : Option Json
  originalImage : Option Json
  sectionName : Option Json
deriving DecidableEq, Repr

/-- The `processed_item` dictionary built from one raw item record
(src/scraper.py lines 86-95). -/
def entryItem (fs : List (String × Json)) : MenuItem :=
  { id := pyGet "id" fs
    name := pyGet "name" fs
    description := pyGet "description" fs
    price := pyGet "price" fs
    originalSection := pyGet "originalSection" fs
    image := pyGet "image" fs
    originalImage := pyGet "originalImage" fs
    sectionName := pyGet "sectionName" fs }

/-- Processing of one entry of the `items` list: `item.get(...)` raises
`AttributeError` when the entry is not a dict. -/
def entryItemE : Json → Except String MenuItem
  | .obj fs => .ok (entryItem fs)
  | _ => .error "AttributeError: item entry has no attribute get"

/-- Whether `needle` occurs contiguously inside `hay` (Python's
substring membership test `needle in hay`). -/
def listSub (needle : List Char) : List Char → Bool
  | [] => needle.isEmpty
  | c :: t => needle.isPrefixOf (c :: t) || listSub needle t

/-- Embedding of `process_menu_data` (src/scraper.py lines 78-97).
`if not menu_data or 'items' not in menu_data: return []` — Python
truthiness first, then dict membership; the membership test on truthy
non-dict values and the iteration over non-list `items` values raise
`TypeError`, modelled as `.error`. -/
def process_menu_data : Option Json → Except String (List MenuItem)
  | none => .ok []
  | some j =>
    if j.falsy then .ok []
    else
      match j with
      | .obj fields =>
        match lookupKey "items" fields with
        | none => .ok []
        | some (.arr entries) => entries.mapM entryItemE
        | some _ => .error "TypeError: the items value is not a list of records"
      | .str s =>
        if listSub "items".data s.data then
          .error "TypeError: string indices must be integers"
        else .ok []
      | .arr xs =>
        if (Json.str "items") ∈ xs then
          .error "TypeError: list indices must be integers"
        else .ok []
      | _ => .error "TypeError: argument is not iterable"

/-- The columns of `merge_data`'s output frame, in the fixed order of
`final_columns` (src/scraper.py lines 187-195). -/
inductive Col where
  | id | section_en | section_ar | name_en | name_ar
  | description_en | description_ar | price_en | originalImage
deriving DecidableEq, Repr

/-- All nine `final_columns`, present whenever the outer-merge branch runs. -/
def finalColumnsAll : List Col :=
  [.id, .section_en, .section_ar, .name_en, .name_ar,
   .description_en, .description_ar, .price_en, .originalImage]

/-- The columns surviving the `final_columns` filter in the index-concat
fallback with an empty primary frame: only the Arabic-side columns exist. -/
def fallbackColumnsAr : List Col := [.section_ar, .name_ar, .description_ar]

/-- One row of `merge_data`'s output.  A `none` cell is a pandas null
(NaN / None): either side's field left unmatched by the outer join, or a
column absent from that row's source. -/
structure MergedRow where
  id : Option Json
  section_en : Option Json
  section_ar : Option Json
  name_en : Option Json
  name_ar : Option Json
  description_en : Option Json
  description_ar : Option Json
  price_en : Option Json
  originalImage : Option Json
deriving DecidableEq, Repr

/-- Row of the outer merge for an id matched on both sides: English
fields from the primary record, Arabic fields from the secondary one;
`price_ar` was never selected and `originalImage` comes from the primary
side only. -/
def rowBoth (e a : MenuItem) : MergedRow :=
  { id := e.id
    section_en := e.originalSection
    section_ar := a.originalSection
    name_en := e.name
    name_ar := a.name
    description_en := e.description
    description_ar := a.description
    price_en := e.price
    originalImage := e.originalImage }

/-- Row of the outer merge for an id present only in the primary frame:
the Arabic columns are null. -/
def rowLeft (e : MenuItem) : MergedRow :=
  { id := e.id
    section_en := e.originalSection
    section_ar := none
    name_en := e.name
    name_ar := none
    description_en := e.description
    description_ar := none
    price_en := e.price
    originalImage := e.originalImage }

/-- Row of the outer merge for an id present only in the secondary frame:
every primary-side column is null. -/
def rowRight (a : MenuItem) : MergedRow :=
  { id := a.id
    section_en := none
    section_ar := a.originalSection
    name_en := none
    name_ar := a.name
    description_en := none
    description_ar := none
    price_en := none
    originalImage := none }

/-- Row of the index-concat fallback (`pd.concat(..., axis=1)`) when the
primary frame is empty: only the three selected Arabic columns exist. -/
def rowConcatAr (a : MenuItem) : MergedRow :=
  { id := none
    section_en := none
    section_ar := a.originalSection
    name_en := none
    name_ar := none
    description_en := none
    description_ar := a.description
    price_en := none
    originalImage := none }

/-- The secondary rows whose id equals a given primary row's id
(pandas matches null keys to null keys in a merge). -/
def matchesFor (ar : List MenuItem) (e : MenuItem) : List MenuItem :=
  ar.filter (fun a => decide (a.id = e.id))

/-- Output rows contributed by one primary row under `how='outer'`:
one row per matching secondary row, or a single Arabic-null row when
nothing matches. -/
def mergeLeftRows (ar : List MenuItem) (e : MenuItem) : List MergedRow :=
  match matchesFor ar e with
  | [] => [rowLeft e]
  | ms => ms.map (rowBoth e)

/-- The secondary rows whose id appears in no primary row, appended by
the outer merge after the primary-driven rows. -/
def rightOnly (en ar : List MenuItem) : List MenuItem :=
  ar.filter (fun a => decide (a.id ∉ en.map MenuItem.id))

/-- Model of `pd.merge(df_en, df_ar[[...]], on='id', how='outer')` with
`sort=False`: many-to-many on equal ids, primary-driven rows first, then
the unmatched secondary rows in their own order. -/
def outerMerge (en ar : List MenuItem) : List MergedRow :=
  ((en.map (mergeLeftRows ar)).flatten) ++ (rightOnly en ar).map rowRight

/-- Embedding of `merge_data` (src/scraper.py lines 151-199).  A frame
built from a list of `MenuItem` dicts has an `id` column exactly when
the list is non-empty; when the merge guard fails, the fallback selects
`df_ar[['name_ar', 'description_ar', 'section_ar']]`, which raises
`KeyError` whenever the secondary frame is empty (it then has no columns
at all). -/
def merge_data (en ar : List MenuItem) :
    Except String (List Col × List MergedRow) :=
  if en ≠ [] ∧ ar ≠ [] then
    .ok (finalColumnsAll, outerMerge en ar)
  else if ar = [] then
    .error "KeyError: none of name_ar, description_ar, section_ar are in the columns"
  else
    .ok (fallbackColumnsAr, ar.map rowConcatAr)

/-- ASCII model of the regex class `\s` used by the two marker patterns. -/
def isPyWs (c : Char) : Bool :=
  c == ' ' || c == '\t' || c == '\n' || c == '\r' || c == '\x0b' || c == '\x0c'

/-- If the pattern `<key>\s*:\s*(\x7b)` matches at the head of `cs`,
returns the offset of the captured opening brace from this position.
The whitespace classes contain no colon, so the greedy `\s*` is
deterministic here. -/
def markerAt (key : List Char) (cs : List Char) : Option Nat :=
  if key.isPrefixOf cs then
    let rest := cs.drop key.length
    let w1 := (rest.takeWhile isPyWs).length
    match rest.drop w1 with
    | ':' :: rest2 =>
      let w2 := (rest2.takeWhile isPyWs).length
      match rest2.drop w2 with
      | '{' :: _ => some (key.length + w1 + 1 + w2)
      | _ => none
    | _ => none
  else none

/-- `re.search`: the leftmost position where the marker pattern matches;
the returned index is `match.start(1)`, the absolute position of the
opening brace. -/
def findMarkerAux (key : List Char) : List Char → Nat → Option Nat
  | [], _ => none
  | c :: t, pos =>
    match markerAt key (c :: t) with
    | some off => some (pos + off)
    | none => findMarkerAux key t (pos + 1)

/-- The quoted-key pattern `"menuData"\s*:\s*(\x7b)` of line 50. -/
def quotedKey : List Char := '"' :: "menuData".data ++ ['"']

/-- The bare-key fallback pattern `menuData\s*:\s*(\x7b)` of line 53. -/
def bareKey : List Char := "menuData".data

/-- The two regex searches of src/scraper.py lines 50-53: the quoted-key
pattern first, the bare-key pattern only when the first finds nothing. -/
def markerStart (cs : List Char) : Option Nat :=
  match findMarkerAux quotedKey cs 0 with
  | some s => some s
  | none => findMarkerAux bareKey cs 0

/-- The brace-depth scan of src/scraper.py lines 59-65: walk the text,
increment the signed counter on an opening brace, decrement on a closing
one, and stop at the first closing brace at which the counter reaches
zero, returning that character's index relative to the scan start.
`none` means the text ended with the depth never returning to zero. -/
def scanBraces : List Char → Int → Nat → Option Nat
  | [], _, _ => none
  | c :: t, count, i =>
    if c == '{' then scanBraces t (count + 1) (i + 1)
    else if c == '}' then
      if count - 1 == 0 then some i else scanBraces t (count - 1) (i + 1)
    else scanBraces t count (i + 1)

/-- JSON whitespace as skipped by `json.loads`. -/
def isJsonWs (c : Char) : Bool :=
  c == ' ' || c == '\t' || c == '\n' || c == '\r'

/-- Drop leading JSON whitespace. -/
def skipJWs (cs : List Char) : List Char := cs.dropWhile isJsonWs

/-- Value of one hexadecimal digit, for `\u` escapes. -/
def hexVal (c : Char) : Option Nat :=
  if c.isDigit then some (c.toNat - 48)
  else if 'a' ≤ c && c ≤ 'f' then some (c.toNat - 87)
  else if 'A' ≤ c && c ≤ 'F' then some (c.toNat - 55)
  else none

/-- JSON string body after the opening quote, with the standard escape
set; raw control characters are rejected (strict mode).  A `\u` escape
denoting a surrogate half collapses to NUL in this model — immaterial
here, the claims never exercise surrogates. -/
def parseStringBody : List Char → List Char → Option (String × List Char)
  | [], _ => none
  | c :: t, acc =>
    if c == '"' then some (String.mk acc.reverse, t)
    else if c == '\\' then
      match t with
      | [] => none
      | e :: t2 =>
        if e == '"' then parseStringBody t2 ('"' :: acc)
        else if e == '\\' then parseStringBody t2 ('\\' :: acc)
        else if e == '/' then parseStringBody t2 ('/' :: acc)
        else if e == 'b' then parseStringBody t2 ('\x08' :: acc)
        else if e == 'f' then parseStringBody t2 ('\x0c' :: acc)
        else if e == 'n' then parseStringBody t2 ('\n' :: acc)
        else if e == 'r' then parseStringBody t2 ('\r' :: acc)
        else if e == 't' then parseStringBody t2 ('\t' :: acc)
        else if e == 'u' then
          match t2 with
          | h1 :: h2 :: h3 :: h4 :: t3 =>
            match hexVal h1, hexVal h2, hexVal h3, hexVal h4 with
            | some a, some b, some c4, some d =>
              parseStringBody t3 (Char.ofNat (((a * 16 + b) * 16 + c4) * 16 + d) :: acc)
            | _, _, _, _ => none
          | _ => none
        else none
    else if c.toNat < 32 then none
    else parseStringBody t (c :: acc)

/-- Split off a maximal run of decimal digits. -/
def takeDigits (cs : List Char) : List Char × List Char :=
  (cs.takeWhile Char.isDigit, cs.dropWhile Char.isDigit)

/-- Integer part of the JSON number grammar: `0 | [1-9][0-9]*`. -/
def parseIntPart : List Char → Option (List Char × List Char)
  | [] => none
  | c :: t =>
    if c == '0' then some (['0'], t)
    else if c.isDigit then
      let (ds, r) := takeDigits t
      some (c :: ds, r)
    else none

/-- Optional fraction `(\.[0-9]+)?`; like the regex group, a malformed
fraction matches empty rather than failing. -/
def parseFracPart (cs : List Char) : List Char × List Char :=
  match cs with
  | '.' :: t =>
    let (ds, r) := takeDigits t
    if ds.isEmpty then ([], cs) else ('.' :: ds, r)
  | _ => ([], cs)

/-- Optional exponent `([eE][+-]?[0-9]+)?`; matches empty when malformed. -/
def parseExpPart (cs : List Char) : List Char × List Char :=
  match cs with
  | c :: s :: t =>
    if c == 'e' || c == 'E' then
      if s == '+' || s == '-' then
        let (ds, r) := takeDigits t
        if ds.isEmpty then ([], cs) else (c :: s :: ds, r)
      else
        let (ds, r) := takeDigits (s :: t)
        if ds.isEmpty then ([], cs) else (c :: ds, r)
    else ([], cs)
  | _ => ([], cs)

/-- The number token, kept as its lexeme. -/
def parseNumLex (cs : List Char) : Option (String × List Char) :=
  let (sign, cs1) := match cs with
    | '-' :: t => ((['-'] : List Char), t)
    | _ => (([] : List Char), cs)
  match parseIntPart cs1 with
  | none => none
  | some (ip, r1) =>
    let (fp, r2) := parseFracPart r1
    let (ep, r3) := parseExpPart r2
    some (String.mk (sign ++ ip ++ fp ++ ep), r3)

/-- Dict insertion while parsing an object: a repeated key keeps its
first position but takes the last value, as a Python dict does. -/
def insertKey (fs : List (String × Json)) (k : String) (v : Json) :
    List (String × Json) :=
  if fs.any (fun p => p.1 == k) then
    fs.map (fun p => if p.1 == k then (k, v) else p)
  else fs ++ [(k, v)]

mutual

/-- Recursive-descent JSON value, fuelled; `json.loads` also accepts the
non-standard `NaN`, `Infinity` and `-Infinity` constants. -/
def parseValue : Nat → List Char → Option (Json × List Char)
  | 0, _ => none
  | Nat.succ fuel, cs =>
    match cs with
    | [] => none
    | '{' :: t => parseObjBody fuel (skipJWs t) []
    | '[' :: t => parseArrBody fuel (skipJWs t) []
    | '"' :: t =>
      match parseStringBody t [] with
      | some (s, r) => some (.str s, r)
      | none => none
    | c :: t =>
      if "null".data.isPrefixOf (c :: t) then some (.null, t.drop 3)
      else if "true".data.isPrefixOf (c :: t) then some (.bool true, t.drop 3)
      else if "false".data.isPrefixOf (c :: t) then some (.bool false, t.drop 4)
      else if c.isDigit || c == '-' then
        match parseNumLex (c :: t) with
        | some (lx, r) => some (.num lx, r)
        | none =>
          if "-Infinity".data.isPrefixOf (c :: t) then some (.num "-Infinity", t.drop 8)
          else none
      else if "NaN".data.isPrefixOf (c :: t) then some (.num "NaN", t.drop 2)
      else if "Infinity".data.isPrefixOf (c :: t) then some (.num "Infinity", t.drop 7)
      else none

/-- Members of an object after its opening brace (whitespace already
skipped); a trailing comma or a non-string key is rejected. -/
def parseObjBody : Nat → List Char → List (String × Json) →
    Option (Json × List Char)
  | 0, _, _ => none
  | Nat.succ fuel, cs, acc =>
    match cs with
    | '}' :: t => if acc.isEmpty then some (.obj [], t) else none
    | '"' :: t =>
      match parseStringBody t [] with
      | none => none
      | some (k, r) =>
        match skipJWs r with
        | ':' :: r2 =>
          match parseValue fuel (skipJWs r2) with
          | none => none
          | some (v, r3) =>
            match skipJWs r3 with
            | ',' :: r4 => parseObjBody fuel (skipJWs r4) (insertKey acc k v)
            | '}' :: r4 => some (.obj (insertKey acc k v), r4)
            | _ => none
        | _ => none
    | _ => none

/-- Elements of an array after its opening bracket (whitespace already
skipped); a trailing comma is rejected. -/
def parseArrBody : Nat → List Char → List Json → Option (Json × List Char)
  | 0, _, _ => none
  | Nat.succ fuel, cs, acc =>
    match cs with
    | ']' :: t => if acc.isEmpty then some (.arr [], t) else none
    | _ =>
      match parseValue fuel cs with
      | none => none
      | some (v, r) =>
        match skipJWs r with
        | ',' :: r2 => parseArrBody fuel (skipJWs r2) (acc ++ [v])
        | ']' :: r2 => some (.arr (acc ++ [v]), r2)
        | _ => none

end

/-- Model of `json.loads`: parse one value, demanding the whole input be
consumed up to whitespace. -/
def Json.parse (s : String) : Option Json :=
  match parseValue (s.data.length + 1) (skipJWs s.data) with
  | some (v, rest) => if (skipJWs rest).isEmpty then some v else none
  | none => none

/-- The scan-and-parse step of src/scraper.py lines 56-73 from the index
of the matched opening brace: isolate the span ending at the first
return of the brace depth to zero and hand it to `json.loads`; both a
missing closing brace and a parse failure give an absent result. -/
def sliceParse (cs : List Char) (s : Nat) : Option Json :=
  match scanBraces (cs.drop s) 0 0 with
  | some i => Json.parse (String.mk ((cs.drop s).take (i + 1)))
  | none => none

/-- Embedding of `extract_menu_data` (src/scraper.py lines 33-76). -/
def extract_menu_data (html : String) : Option Json :=
  match markerStart html.data with
  | some s => sliceParse html.data s
  | none => none

/-- A file system: paths mapped to byte lists.  A later entry for a path
shadows an earlier one, so writing is consing. -/
structure Fs where
  files : List (String × List Nat)
deriving DecidableEq, Repr

/-- Model of `os.path.exists`. -/
def Fs.pathExists (fs : Fs) (p : String) : Bool :=
  fs.files.any (fun e => e.1 == p)

/-- Contents at a path, taking the most recent write. -/
def Fs.read? (fs : Fs) (p : String) : Option (List Nat) :=
  (fs.files.find? (fun e => e.1 == p)).map (fun e => e.2)

/-- Model of `open(path, 'wb')` followed by writing the whole stream. -/
def Fs.write (fs : Fs) (p : String) (content : List Nat) : Fs :=
  ⟨(p, content) :: fs.files⟩

/-- An HTTP response as the downloader consumes it: `ok` is whether
`raise_for_status` passes, plus the declared content type and the byte
stream. -/
structure Response where
  ok : Bool
  contentType : Option String
  body : List Nat
deriving Repr

/-- Index of the last occurrence of a character. -/
def lastIdxOf (c : Char) (cs : List Char) : Option Nat :=
  ((cs.enum.filter (fun p => p.2 == c)).map (fun p => p.1)).getLast?

/-- Model of `os.path.splitext` (posix): split at the last dot of the
part after the last slash, except that a basename consisting only of
leading dots up to that dot has no extension. -/
def splitext (p : String) : String × String :=
  let cs := p.data
  let sepIdx : Int := match lastIdxOf '/' cs with | some i => (i : Int) | none => -1
  let dotIdx : Int := match lastIdxOf '.' cs with | some i => (i : Int) | none => -1
  if sepIdx < dotIdx then
    let fnStart := (sepIdx + 1).toNat
    let dotN := dotIdx.toNat
    if (List.range' fnStart (dotN - fnStart)).any (fun j => !(cs.getD j '.' == '.')) then
      (String.mk (cs.take dotN), String.mk (cs.drop dotN))
    else (p, "")
  else (p, "")

/-- Model of `os.path.basename` (posix): the part after the last slash. -/
def basename (p : String) : String :=
  String.mk ((p.data.reverse.takeWhile (fun c => !(c == '/'))).reverse)

/-- `url.split('?')[0]`: the query-stripped URL. -/
def cleanUrlOf (url : String) : String :=
  String.mk (url.data.takeWhile (fun c => !(c == '?')))

/-- Modelled from the Python standard library: the slice of the
`mimetypes.guess_extension` table for image types; unknown types give
`None`. -/
def guess_extension (ct : String) : Option String :=
  if ct == "image/jpeg" then some ".jpg"
  else if ct == "image/png" then some ".png"
  else if ct == "image/gif" then some ".gif"
  else if ct == "image/webp" then some ".webp"
  else if ct == "image/svg+xml" then some ".svg"
  else none

/-- The extension decision of src/scraper.py lines 112-119: the cleaned
URL path's own extension; if empty, a guess from the declared content
type; `.jpg` when both fail. -/
def determine_ext (clean_url : String) (contentType : Option String) : String :=
  let e1 := (splitext clean_url).2
  let e2 :=
    if e1 == "" then
      match contentType with
      | some ct =>
        if ct == "" then ""
        else match guess_extension ct with
          | some g => g
          | none => ""
      | none => ""
    else e1
  if e2 == "" then ".jpg" else e2

/-- A character the sanitizer keeps: letters, digits, or one of `._- `
(ASCII model of Python's `isalpha`/`isdigit`). -/
def keepChar (c : Char) : Bool :=
  c.isAlpha || c.isDigit || c == '.' || c == '_' || c == '-' || c == ' '

/-- Python `str.strip()`: drop whitespace from both ends. -/
def pyStrip (cs : List Char) : List Char :=
  ((cs.dropWhile isPyWs).reverse.dropWhile isPyWs).reverse

/-- The filename sanitizer of lines 123 and 128: keep only the safe
characters, then strip. -/
def sanitize (s : String) : String :=
  String.mk (pyStrip (s.data.filter keepChar))

/-- Whether a string starts with the given character. -/
def strStarts (s : String) (c : Char) : Bool :=
  match s.data with
  | [] => false
  | a :: _ => a == c

/-- Whether a string ends with the given character. -/
def strEnds (s : String) (c : Char) : Bool :=
  s.data.getLast? == some c

/-- Model of `os.path.join` for the shapes the downloader produces. -/
def ospath_join (d f : String) : String :=
  if strStarts f '/' then f
  else if d == "" || strEnds d '/' then d ++ f
  else d ++ "/" ++ f

/-- The collision loop of src/scraper.py lines 135-138: try
`base_1`, `base_2`, … until a free path is found.  The fuel only bounds
the model's recursion; the Python loop always terminates because the
file system is finite. -/
def findFree (fs : Fs) (dir base extension : String) : Nat → Nat → Option String
  | 0, _ => none
  | Nat.succ fuel, counter =>
    let p := ospath_join dir (base ++ "_" ++ toString counter ++ extension)
    if fs.pathExists p then findFree fs dir base extension fuel (counter + 1)
    else some p

/-- The save path `download_image` derives for a URL-derived (non-custom)
name: prefix plus basename of the cleaned URL, sanitized, joined to the
directory. -/
def urlDerivedPath (dir pfx u : String) : String :=
  ospath_join dir (sanitize (pfx ++ basename (cleanUrlOf u)))

/-- The filename `download_image` derives for a custom name: the
sanitized custom name with the determined extension appended. -/
def customName (c ext : String) : String := sanitize c ++ ext

/-- The k-th collision candidate `f"{base}_{counter}{extension}"` of the
collision loop, joined to the directory. -/
def candPath (dir fname : String) (k : Nat) : String :=
  ospath_join dir ((splitext fname).1 ++ "_" ++ toString k ++ (splitext fname).2)

/-- Outcome of one `download_image` call: the file system afterwards,
the returned path (`none` is Python `None`), and how many HTTP requests
the call issued. -/
structure DlResult where
  fs : Fs
  outcome : Option String
  fetches : Nat
deriving DecidableEq, Repr

/-- Embedding of `download_image` (src/scraper.py lines 99-149).  The
network is a pure map from URL to `none` (a requests exception) or a
response; the request is issued before any filename or existence logic,
as in the source.  The final `except` of lines 147-149 converts every
failure into an absent outcome. -/
def download_image (net : String → Option Response) (fs : Fs)
    (url : Option String) (save_dir : String) (fnamePfx : String)
    (custom_filename : Option String) : DlResult :=
  match url with
  | none => ⟨fs, none, 0⟩
  | some u =>
    if u == "" then ⟨fs, none, 0⟩
    else
      let clean_url := cleanUrlOf u
      match net u with
      | none => ⟨fs, none, 1⟩
      | some resp =>
        if !resp.ok then ⟨fs, none, 1⟩
        else
          let ext := determine_ext clean_url resp.contentType
          let isCustom : Bool := match custom_filename with
            | some c => !(c == "")
            | none => false
          let filename := match custom_filename with
            | some c =>
              if c == "" then sanitize (fnamePfx ++ basename clean_url)
              else sanitize c ++ ext
            | none => sanitize (fnamePfx ++ basename clean_url)
          let save_path := ospath_join save_dir filename
          if isCustom && fs.pathExists save_path then
            match findFree fs save_dir (splitext filename).1 (splitext filename).2
                (fs.files.length + 1) 1 with
            | some p => ⟨fs.write p resp.body, some p, 1⟩
            | none => ⟨fs, none, 1⟩
          else if fs.pathExists save_path then
            ⟨fs, some save_path, 1⟩
          else
            ⟨fs.write save_path resp.body, some save_path, 1⟩

/-- A transport-level failure of one page fetch. -/
inductive FetchErr where
  | connError
  | timeout
  | httpStatus (code : Nat)
deriving DecidableEq, Repr

/-- What the network does on one attempt: raise inside `requests.get`,
or deliver a response with a status code. -/
inductive FetchOutcome where
  | exn (e : FetchErr)
  | resp (status : Nat) (body : String)
deriving Repr

/-- One attempt of the `fetch_html` body (src/scraper.py lines 25-31):
`raise_for_status` raises exactly for 4xx and 5xx status codes; the
caught exception is re-raised. -/
def attemptResult (o : FetchOutcome) : Except FetchErr String :=
  match o with
  | .exn e => .error e
  | .resp s b => if 400 ≤ s ∧ s < 600 then .error (.httpStatus s) else .ok b

/-- The tenacity retry loop: `rem` attempts remain, `i` attempts are
already spent.  Returns the outcome, the total number of attempts made,
and the total fixed-pause wait (2 units between consecutive attempts).
After exhaustion tenacity raises (a `RetryError` wrapping the last
error), modelled as the error propagating. -/
def fetchGo (net : Nat → FetchOutcome) : Nat → Nat → Except FetchErr String × Nat × Nat
  | 0, i => (.error FetchErr.connError, i, 2 * (i - 1))
  | Nat.succ rem, i =>
    match attemptResult (net i) with
    | .ok b => (.ok b, i + 1, 2 * i)
    | .error e =>
      if rem == 0 then (.error e, i + 1, 2 * i)
      else fetchGo net rem (i + 1)

/-- Embedding of `fetch_html` (src/scraper.py lines 15-31):
`@retry(stop=stop_after_attempt(3), wait=wait_fixed(2))`. -/
def fetch_html (net : Nat → FetchOutcome) : Except FetchErr String × Nat × Nat :=
  fetchGo net 3 0

def netT : String → Option Response := fun u =>
  if u == "http://x/a.jpg?v=2" then some ⟨true, some "image/jpeg", [1, 2]⟩ else none

/-- A directory with two prior files at the custom base name `item`. -/
def fsColl : Fs := ⟨[("img/item.jpg", [0]), ("img/item_1.jpg", [0])]⟩

/-- Concrete primary-locale item used by witnesses and counterexamples. -/
def miBurger : MenuItem :=
  { id := some (Json.num "1")
    name := some (Json.str "Burger")
    description := none
    price := some (Json.num "5")
    originalSection := some (Json.str "Mains")
    image := none
    originalImage := some (Json.str "http://x/a.jpg")
    sectionName := none }

/-- Concrete secondary-locale item sharing `miBurger`'s id. -/
def miBurgerAr : MenuItem :=
  { id := some (Json.num "1")
    name := some (Json.str "Burger-ar")
    description := some (Json.str "desc-ar")
    price := some (Json.num "5")
    originalSection := some (Json.str "Mains-ar")
    image := none
    originalImage := none
    sectionName := none }

/-- Concrete secondary-locale item with an id of its own. -/
def miPizzaAr : MenuItem :=
  { id := some (Json.num "2")
    name := some (Json.str "Pizza-ar")
    description := none
    price := none
    originalSection := none
    image := none
    originalImage := none
    sectionName := none }

/-! Theorems.  Helper lemmas come first; each claim is settled by one
theorem named after it. -/

theorem fetchGo_succ (net : Nat → FetchOutcome) (rem i : Nat) :
    fetchGo net (rem + 1) i =
      match attemptResult (net i) with
      | .ok b => (.ok b, i + 1, 2 * i)
      | .error e =>
        if rem == 0 then (.error e, i + 1, 2 * i) else fetchGo net rem (i + 1) := by
  rfl

/-- C10: calling `download_image` with an absent or empty URL returns an
absent outcome at once — zero requests issued, file system untouched. -/
theorem C10_absent_url_no_request (net : String → Option Response) (fs : Fs)
    (dir pfx : String) (custom : Option String) :
    download_image net fs none dir pfx custom = ⟨fs, none, 0⟩ ∧
    download_image net fs (some "") dir pfx custom = ⟨fs, none, 0⟩ :=
  ⟨rfl, rfl⟩

/-- C4: `merge_data` does not complete on a non-empty primary sequence and
an empty secondary one — the fallback branch selects the Arabic columns
from an empty frame and raises `KeyError`, so the batch-level merge fails
instead of returning a table. -/
theorem C4_merge_empty_secondary_raises :
    ∃ e, merge_data [miBurger] [] = Except.error e :=
  ⟨_, rfl⟩

/-- C9 (amended): on connection error, timeout or a 4xx/5xx status on
every attempt, `fetch_html` makes exactly 3 attempts separated by fixed
2-unit pauses and the last failure propagates as an exception; a first
successful attempt returns at once. -/
theorem C9_retry_exhaustion (net : Nat → FetchOutcome) :
    ((∀ i, i < 3 → ∃ e, attemptResult (net i) = .error e) →
      ∃ e, fetch_html net = (.error e, 3, 4)) ∧
    (∀ b, attemptResult (net 0) = .ok b → fetch_html net = (.ok b, 1, 0)) := by
  constructor
  · intro h
    obtain ⟨e0, h0⟩ := h 0 (by omega)
    obtain ⟨e1, h1⟩ := h 1 (by omega)
    obtain ⟨e2, h2⟩ := h 2 (by omega)
    refine ⟨e2, ?_⟩
    show fetchGo net (2 + 1) 0 = _
    rw [fetchGo_succ, h0]
    show fetchGo net (1 + 1) 1 = _
    rw [fetchGo_succ, h1]
    show fetchGo net (0 + 1) 2 = _
    rw [fetchGo_succ, h2]
    rfl
  · intro b hb
    show fetchGo net (2 + 1) 0 = _
    rw [fetchGo_succ, hb]

/-- C9, witness: a network that refuses the connection on every attempt
exhausts the 3 attempts with 2 + 2 units of pause and propagates. -/
theorem C9_retry_exhaustion_witness :
    (∃ e, fetch_html (fun _ => FetchOutcome.exn FetchErr.connError) = (.error e, 3, 4)) ∧
    fetch_html (fun _ => FetchOutcome.resp 200 "ok") = (.ok "ok", 1, 0) :=
  ⟨(C9_retry_exhaustion (fun _ => FetchOutcome.exn FetchErr.connError)).1
      (fun _ _ => ⟨FetchErr.connError, rfl⟩),
   (C9_retry_exhaustion (fun _ => FetchOutcome.resp 200 "ok")).2 "ok" rfl⟩

/-- C9, counterexample to the claim as stated: a 304 response is not a
2xx status, yet `raise_for_status` only raises for 4xx/5xx, so the fetch
succeeds on the first attempt — no retry, no propagated failure. -/
theorem C9_counterexample_status_304 :
    (304 < 200 ∨ 300 ≤ 304) ∧
    fetch_html (fun _ => FetchOutcome.resp 304 "body") = (.ok "body", 1, 0) :=
  ⟨by omega, rfl⟩

/-- C5: when the marker is found but the brace depth never returns to
zero before the end of the text, and likewise when the isolated span
fails to parse as JSON, `extract_menu_data` returns an absent result —
the embedding is a total function into `Option`, so no exception
escapes. -/
theorem C5_extractor_failures_absent :
    (∀ (html : String) (s : Nat), markerStart html.data = some s →
      scanBraces (html.data.drop s) 0 0 = none →
      extract_menu_data html = none) ∧
    (∀ (html : String) (s i : Nat), markerStart html.data = some s →
      scanBraces (html.data.drop s) 0 0 = some i →
      Json.parse (String.mk ((html.data.drop s).take (i + 1))) = none →
      extract_menu_data html = none) := by
  constructor
  · intro html s hm hsc
    unfold extract_menu_data
    rw [hm]
    show sliceParse html.data s = none
    unfold sliceParse
    rw [hsc]
  · intro html s i hm hsc hp
    unfold extract_menu_data
    rw [hm]
    show sliceParse html.data s = none
    unfold sliceParse
    rw [hsc]
    exact hp

/-- C5, witness: a marker whose object never closes, and a marker whose
balanced span is not valid JSON, both yield an absent result. -/
theorem C5_extractor_failures_witness :
    extract_menu_data "\"menuData\": \x7b\x7b\x7d" = none ∧
    extract_menu_data "\"menuData\": \x7bbad\x7d" = none :=
  ⟨C5_extractor_failures_absent.1 _ 12 rfl rfl,
   C5_extractor_failures_absent.2 _ 12 4 rfl rfl rfl⟩

theorem pathExists_write_self (fs : Fs) (p : String) (b : List Nat) :
    (fs.write p b).pathExists p = true := by
  simp [Fs.write, Fs.pathExists]

theorem read_write_ne (fs : Fs) (p q : String) (b : List Nat) (h : ¬ q = p) :
    (fs.write p b).read? q = fs.read? q := by
  simp only [Fs.write, Fs.read?]
  rw [List.find?_cons_of_neg]
  simp only [beq_iff_eq]
  exact fun hh => h hh.symm

theorem ne_of_pathExists (fs : Fs) {q p : String}
    (hq : fs.pathExists q = true) (hp : fs.pathExists p = false) : ¬ q = p := by
  intro h
  subst h
  rw [hq] at hp
  exact Bool.noConfusion hp

theorem download_noncustom_fresh (net : String → Option Response) (fs : Fs)
    (u dir pfx : String) (r : Response)
    (hu : ¬ u = "") (hnet : net u = some r) (hok : r.ok = true)
    (hfree : fs.pathExists (urlDerivedPath dir pfx u) = false) :
    download_image net fs (some u) dir pfx none =
      ⟨fs.write (urlDerivedPath dir pfx u) r.body, some (urlDerivedPath dir pfx u), 1⟩ := by
  unfold urlDerivedPath at hfree ⊢
  simp [download_image, beq_false_of_ne hu, hnet, hok, hfree]

theorem download_noncustom_skip (net : String → Option Response) (fs : Fs)
    (u dir pfx : String) (r : Response)
    (hu : ¬ u = "") (hnet : net u = some r) (hok : r.ok = true)
    (hex : fs.pathExists (urlDerivedPath dir pfx u) = true) :
    download_image net fs (some u) dir pfx none =
      ⟨fs, some (urlDerivedPath dir pfx u), 1⟩ := by
  unfold urlDerivedPath at hex ⊢
  simp [download_image, beq_false_of_ne hu, hnet, hok, hex]

theorem download_custom_fresh (net : String → Option Response) (fs : Fs)
    (u dir pfx c : String) (r : Response)
    (hu : ¬ u = "") (hc : ¬ c = "") (hnet : net u = some r) (hok : r.ok = true)
    (hfree : fs.pathExists
      (ospath_join dir (customName c (determine_ext (cleanUrlOf u) r.contentType))) = false) :
    download_image net fs (some u) dir pfx (some c) =
      ⟨fs.write (ospath_join dir (customName c (determine_ext (cleanUrlOf u) r.contentType))) r.body,
        some (ospath_join dir (customName c (determine_ext (cleanUrlOf u) r.contentType))), 1⟩ := by
  unfold customName at hfree ⊢
  simp [download_image, beq_false_of_ne hu, beq_false_of_ne hc, hnet, hok, hfree]

theorem download_custom_collision (net : String → Option Response) (fs : Fs)
    (u dir pfx c : String) (r : Response)
    (hu : ¬ u = "") (hc : ¬ c = "") (hnet : net u = some r) (hok : r.ok = true)
    (hex : fs.pathExists
      (ospath_join dir (customName c (determine_ext (cleanUrlOf u) r.contentType))) = true) :
    download_image net fs (some u) dir pfx (some c) =
      match findFree fs dir
          (splitext (customName c (determine_ext (cleanUrlOf u) r.contentType))).1
          (splitext (customName c (determine_ext (cleanUrlOf u) r.contentType))).2
          (fs.files.length + 1) 1 with
      | some q => ⟨fs.write q r.body, some q, 1⟩
      | none => ⟨fs, none, 1⟩ := by
  unfold customName at hex ⊢
  simp [download_image, beq_false_of_ne hu, beq_false_of_ne hc, hnet, hok, hex]

theorem findFree_pathExists_false (fs : Fs) (dir b e : String) :
    ∀ (fuel ctr : Nat) (p : String),
      findFree fs dir b e fuel ctr = some p → fs.pathExists p = false := by
  intro fuel
  induction fuel with
  | zero => intro ctr p h; simp [findFree] at h
  | succ n ih =>
    intro ctr p h
    simp only [findFree] at h
    by_cases hex : fs.pathExists (ospath_join dir (b ++ "_" ++ toString ctr ++ e)) = true
    · rw [if_pos hex] at h
      exact ih (ctr + 1) p h
    · rw [if_neg hex] at h
      cases h
      simpa using hex

theorem findFree_contiguous (fs : Fs) (dir b e : String) (N : Nat)
    (hprev : ∀ k, 1 ≤ k → k < N →
      fs.pathExists (ospath_join dir (b ++ "_" ++ toString k ++ e)) = true)
    (hfreeN : fs.pathExists (ospath_join dir (b ++ "_" ++ toString N ++ e)) = false) :
    ∀ (fuel c : Nat), 1 ≤ c → c ≤ N → N - c < fuel →
      findFree fs dir b e fuel c =
        some (ospath_join dir (b ++ "_" ++ toString N ++ e)) := by
  intro fuel
  induction fuel with
  | zero => intro c _ _ h3; omega
  | succ n ih =>
    intro c h1 h2 h3
    by_cases hc : c = N
    · subst hc
      simp only [findFree]
      rw [if_neg (by simp [hfreeN])]
    · have hlt : c < N := by omega
      simp only [findFree]
      rw [if_pos (hprev c h1 hlt)]
      exact ih (c + 1) (by omega) (by omega) (by omega)

/-- C6: with the base custom name and its `_1` … `_(N-1)` variants all
taken and `_N` free, `download_image` resolves to the `_N` candidate and
writes there; and with a custom filename it never overwrites: every path
already present keeps its contents.  (The bound `N ≤ |files| + 1` feeds
the model's recursion fuel; the Python `while` loop needs no bound
because the file system is finite.) -/
theorem C6_custom_collision_policy :
    (∀ (net : String → Option Response) (fs : Fs) (u dir pfx c : String)
        (r : Response) (N : Nat),
      ¬ u = "" → ¬ c = "" → net u = some r → r.ok = true →
      fs.pathExists
        (ospath_join dir (customName c (determine_ext (cleanUrlOf u) r.contentType))) = true →
      1 ≤ N → N ≤ fs.files.length + 1 →
      (∀ k, 1 ≤ k → k < N →
        fs.pathExists
          (candPath dir (customName c (determine_ext (cleanUrlOf u) r.contentType)) k) = true) →
      fs.pathExists
        (candPath dir (customName c (determine_ext (cleanUrlOf u) r.contentType)) N) = false →
      download_image net fs (some u) dir pfx (some c) =
        ⟨fs.write (candPath dir (customName c (determine_ext (cleanUrlOf u) r.contentType)) N) r.body,
          some (candPath dir (customName c (determine_ext (cleanUrlOf u) r.contentType)) N), 1⟩) ∧
    (∀ (net : String → Option Response) (fs : Fs) (u dir pfx c q : String),
      ¬ c = "" → fs.pathExists q = true →
      (download_image net fs (some u) dir pfx (some c)).fs.read? q = fs.read? q) := by
  constructor
  · intro net fs u dir pfx c r N hu hc hnet hok hex hN hNle hprev hfreeN
    rw [download_custom_collision net fs u dir pfx c r hu hc hnet hok hex]
    unfold candPath at hprev hfreeN ⊢
    rw [findFree_contiguous fs dir _ _ N hprev hfreeN (fs.files.length + 1) 1
      (by omega) hN (by omega)]
  · intro net fs u dir pfx c q hc hq
    by_cases hu : u = ""
    · subst hu; rfl
    · cases hnet : net u with
      | none => simp [download_image, beq_false_of_ne hu, hnet]
      | some r =>
        by_cases hok : r.ok = true
        · by_cases hex : fs.pathExists
            (ospath_join dir (customName c (determine_ext (cleanUrlOf u) r.contentType))) = true
          · rw [download_custom_collision net fs u dir pfx c r hu hc hnet hok hex]
            cases hff : findFree fs dir
                (splitext (customName c (determine_ext (cleanUrlOf u) r.contentType))).1
                (splitext (customName c (determine_ext (cleanUrlOf u) r.contentType))).2
                (fs.files.length + 1) 1 with
            | none => simp [hff]
            | some p' =>
              simp only [hff]
              exact read_write_ne fs p' q r.body
                (ne_of_pathExists fs hq (findFree_pathExists_false fs dir _ _ _ _ _ hff))
          · have hex' : fs.pathExists
                (ospath_join dir (customName c (determine_ext (cleanUrlOf u) r.contentType))) = false := by
              simpa using hex
            rw [download_custom_fresh net fs u dir pfx c r hu hc hnet hok hex']
            exact read_write_ne fs _ q r.body (ne_of_pathExists fs hq hex')
        · have hok' : r.ok = false := by simpa using hok
          simp [download_image, beq_false_of_ne hu, hnet, hok']

/-- C6, witness: with `img/item.jpg` and `img/item_1.jpg` on disk, a
custom download named `item` resolves to `img/item_2.jpg` (the `_2`
candidate), and the no-overwrite clause holds at `img/item.jpg`. -/
theorem C6_custom_collision_witness :
    download_image netT fsColl (some "http://x/a.jpg?v=2") "img" "" (some "item") =
      ⟨fsColl.write
          (candPath "img" (customName "item"
            (determine_ext (cleanUrlOf "http://x/a.jpg?v=2") (some "image/jpeg"))) 2) [1, 2],
        some (candPath "img" (customName "item"
          (determine_ext (cleanUrlOf "http://x/a.jpg?v=2") (some "image/jpeg"))) 2), 1⟩ ∧
    (download_image netT fsColl (some "http://x/a.jpg?v=2") "img" "" (some "item")).fs.read?
        "img/item.jpg" = fsColl.read? "img/item.jpg" :=
  ⟨C6_custom_collision_policy.1 netT fsColl "http://x/a.jpg?v=2" "img" "" "item"
      ⟨true, some "image/jpeg", [1, 2]⟩ 2 (by decide) (by decide) rfl rfl rfl
      (by decide) (by decide)
      (by intro k hk1 hk2
          have hk : k = 1 := by omega
          subst hk
          rfl)
      rfl,
   C6_custom_collision_policy.2 netT fsColl "http://x/a.jpg?v=2" "img" "" "item"
      "img/item.jpg" (by decide) rfl⟩

/-- C3 (amended): downloading the same URL under the URL-derived name
twice leaves exactly the one file written by the first call: the second
call returns the existing path without writing (skip, not overwrite, not
error) — but it still issues one HTTP request of its own, because the
fetch precedes the existence check. -/
theorem C3_urlname_idempotent (net : String → Option Response) (fs : Fs)
    (u dir pfx : String) (r : Response)
    (hu : ¬ u = "") (hnet : net u = some r) (hok : r.ok = true)
    (hfree : fs.pathExists (urlDerivedPath dir pfx u) = false) :
    download_image net fs (some u) dir pfx none =
      ⟨fs.write (urlDerivedPath dir pfx u) r.body, some (urlDerivedPath dir pfx u), 1⟩ ∧
    download_image net (fs.write (urlDerivedPath dir pfx u) r.body) (some u) dir pfx none =
      ⟨fs.write (urlDerivedPath dir pfx u) r.body, some (urlDerivedPath dir pfx u), 1⟩ :=
  ⟨download_noncustom_fresh net fs u dir pfx r hu hnet hok hfree,
   download_noncustom_skip net _ u dir pfx r hu hnet hok
     (pathExists_write_self fs _ r.body)⟩

/-- C3, witness: the concrete double download of `http://x/a.jpg?v=2`
into an empty directory. -/
theorem C3_urlname_idempotent_witness :
    download_image netT ⟨[]⟩ (some "http://x/a.jpg?v=2") "img" "" none =
      ⟨Fs.write ⟨[]⟩ (urlDerivedPath "img" "" "http://x/a.jpg?v=2") [1, 2],
        some (urlDerivedPath "img" "" "http://x/a.jpg?v=2"), 1⟩ ∧
    download_image netT (Fs.write ⟨[]⟩ (urlDerivedPath "img" "" "http://x/a.jpg?v=2") [1, 2])
        (some "http://x/a.jpg?v=2") "img" "" none =
      ⟨Fs.write ⟨[]⟩ (urlDerivedPath "img" "" "http://x/a.jpg?v=2") [1, 2],
        some (urlDerivedPath "img" "" "http://x/a.jpg?v=2"), 1⟩ :=
  C3_urlname_idempotent netT ⟨[]⟩ "http://x/a.jpg?v=2" "img" ""
    ⟨true, some "image/jpeg", [1, 2]⟩ (by decide) rfl rfl rfl

/-- C3, counterexample to the claim as stated: the second call still
issues a network request (one fetch, not zero), because `requests.get`
runs before the existence check. -/
theorem C3_counterexample_second_fetch :
    (download_image netT
      (download_image netT ⟨[]⟩ (some "http://x/a.jpg?v=2") "img" "" none).fs
      (some "http://x/a.jpg?v=2") "img" "" none).fetches = 1 := by
  decide

theorem guess_extension_ne_empty {c g : String} (h : guess_extension c = some g) :
    ¬ g = "" := by
  unfold guess_extension at h
  split_ifs at h <;>
    first
      | exact Option.noConfusion h
      | (injection h with h1; subst h1; decide)

/-- C8: the downloader's file extension follows the preference order of
src/scraper.py lines 112-119 — the extension of the query-stripped URL
path first; when that is empty, the extension guessed from the declared
content type; `.jpg` when the content type is missing or unmapped.  The
last conjunct ties the decision into `download_image`: a fresh custom
download saves under exactly that extension. -/
theorem C8_extension_preference :
    (∀ (clean : String) (ct : Option String), ¬ (splitext clean).2 = "" →
      determine_ext clean ct = (splitext clean).2) ∧
    (∀ (clean c g : String), (splitext clean).2 = "" → guess_extension c = some g →
      determine_ext clean (some c) = g) ∧
    (∀ (clean c : String), (splitext clean).2 = "" → guess_extension c = none →
      determine_ext clean (some c) = ".jpg") ∧
    (∀ clean : String, (splitext clean).2 = "" → determine_ext clean none = ".jpg") ∧
    (∀ (net : String → Option Response) (fs : Fs) (u dir pfx c : String) (r : Response),
      ¬ u = "" → ¬ c = "" → net u = some r → r.ok = true →
      fs.pathExists
        (ospath_join dir (customName c (determine_ext (cleanUrlOf u) r.contentType))) = false →
      (download_image net fs (some u) dir pfx (some c)).outcome =
        some (ospath_join dir (customName c (determine_ext (cleanUrlOf u) r.contentType)))) := by
  refine ⟨?_, ?_, ?_, ?_, ?_⟩
  · intro clean ct h
    simp [determine_ext, beq_false_of_ne h]
  · intro clean c g h hg
    by_cases hcc : c = ""
    · subst hcc
      rw [show guess_extension "" = none from rfl] at hg
      exact Option.noConfusion hg
    · simp [determine_ext, h, beq_false_of_ne hcc, hg,
        beq_false_of_ne (guess_extension_ne_empty hg)]
  · intro clean c h hg
    by_cases hcc : c = ""
    · subst hcc
      simp [determine_ext, h]
    · simp [determine_ext, h, beq_false_of_ne hcc, hg]
  · intro clean h
    simp [determine_ext, h]
  · intro net fs u dir pfx c r hu hc hnet hok hfree
    rw [download_custom_fresh net fs u dir pfx c r hu hc hnet hok hfree]

/-- C8, witness: one concrete instance of each preference level, and the
concrete custom download saving under the determined extension. -/
theorem C8_extension_preference_witness :
    determine_ext "http://x/b.png" (some "image/gif") = ".png" ∧
    determine_ext "http://x/pic" (some "image/webp") = ".webp" ∧
    determine_ext "http://x/pic" (some "text/plain") = ".jpg" ∧
    determine_ext "http://x/pic" none = ".jpg" ∧
    (download_image netT ⟨[]⟩ (some "http://x/a.jpg?v=2") "img" "" (some "item")).outcome =
      some (ospath_join "img" (customName "item"
        (determine_ext (cleanUrlOf "http://x/a.jpg?v=2") (some "image/jpeg")))) :=
  ⟨C8_extension_preference.1 "http://x/b.png" (some "image/gif") (by decide),
   C8_extension_preference.2.1 "http://x/pic" "image/webp" ".webp" rfl rfl,
   C8_extension_preference.2.2.1 "http://x/pic" "text/plain" rfl rfl,
   C8_extension_preference.2.2.2.1 "http://x/pic" rfl,
   C8_extension_preference.2.2.2.2 netT ⟨[]⟩ "http://x/a.jpg?v=2" "img" "" "item"
     ⟨true, some "image/jpeg", [1, 2]⟩ (by decide) (by decide) rfl rfl rfl⟩

theorem mapM_loop_entryItemE (objs : List (List (String × Json))) :
    ∀ acc : List MenuItem,
      List.mapM.loop entryItemE (objs.map Json.obj) acc =
        Except.ok (acc.reverse ++ objs.map entryItem) := by
  induction objs with
  | nil => intro acc; simp [List.mapM.loop, pure, Except.pure]
  | cons o t ih =>
    intro acc
    simp only [List.map_cons, List.mapM.loop, entryItemE, Bind.bind, Except.bind, ih,
      List.reverse_cons, List.append_assoc, List.cons_append, List.nil_append]

theorem mapM_entryItemE_objs (objs : List (List (String × Json))) :
    (objs.map Json.obj).mapM entryItemE = Except.ok (objs.map entryItem) := by
  show List.mapM.loop entryItemE (objs.map Json.obj) [] = _
  simpa using mapM_loop_entryItemE objs []

/-- C7 (amended): an absent input or an object without an `items` field
yields the empty sequence and never fails; an object whose `items` field
is a list of objects yields exactly one `MenuItem` per entry, in order,
with unmatched keys ignored and missing keys null (`entryItem` reads
only the eight fixed keys, each absent key becoming `none`). -/
theorem C7_process_menu_data_contract :
    process_menu_data none = Except.ok [] ∧
    (∀ fields : List (String × Json), lookupKey "items" fields = none →
      process_menu_data (some (Json.obj fields)) = Except.ok []) ∧
    (∀ (fields : List (String × Json)) (objs : List (List (String × Json))),
      lookupKey "items" fields = some (Json.arr (objs.map Json.obj)) →
      process_menu_data (some (Json.obj fields)) = Except.ok (objs.map entryItem)) := by
  refine ⟨rfl, ?_, ?_⟩
  · intro fields h
    cases fields with
    | nil => rfl
    | cons p t => simp [process_menu_data, Json.falsy, h]
  · intro fields objs h
    cases fields with
    | nil => exact absurd h (by simp [lookupKey])
    | cons p t =>
      simp [process_menu_data, Json.falsy, h]
      simpa using mapM_loop_entryItemE objs []

/-- C7, witness: the three contract branches at concrete inputs. -/
theorem C7_process_menu_data_witness :
    process_menu_data none = Except.ok [] ∧
    process_menu_data (some (Json.obj [("other", Json.num "1")])) = Except.ok [] ∧
    process_menu_data (some (Json.obj [("items", Json.arr
        (List.map Json.obj [[("id", Json.num "1"), ("name", Json.str "Burger")]]))])) =
      Except.ok (List.map entryItem [[("id", Json.num "1"), ("name", Json.str "Burger")]]) :=
  ⟨C7_process_menu_data_contract.1,
   C7_process_menu_data_contract.2.1 [("other", Json.num "1")] rfl,
   C7_process_menu_data_contract.2.2 [("items", Json.arr
     (List.map Json.obj [[("id", Json.num "1"), ("name", Json.str "Burger")]]))]
     [[("id", Json.num "1"), ("name", Json.str "Burger")]] rfl⟩

/-- C7, counterexample to the claim as stated: an input whose `items`
field is a list containing a non-object entry makes the Python loop call
`.get` on that entry and raise `AttributeError` — the operation fails
rather than producing a record for the entry. -/
theorem C7_counterexample_nondict_entry :
    ∃ e, process_menu_data (some (Json.obj [("items", Json.arr [Json.num "5"])])) =
      Except.error e :=
  ⟨_, rfl⟩

theorem scanBraces_append (xs ys : List Char) :
    ∀ (c : Int) (i j : Nat), scanBraces xs c i = some j →
      scanBraces (xs ++ ys) c i = some j := by
  induction xs with
  | nil => intro c i j h; simp [scanBraces] at h
  | cons a t ih =>
    intro c i j h
    rw [List.cons_append]
    unfold scanBraces at h ⊢
    by_cases h1 : (a == '{') = true
    · rw [if_pos h1] at h ⊢
      exact ih _ _ _ h
    · rw [if_neg h1] at h ⊢
      by_cases h2 : (a == '}') = true
      · rw [if_pos h2] at h ⊢
        by_cases h3 : (c - 1 == 0) = true
        · rw [if_pos h3] at h ⊢
          exact h
        · rw [if_neg h3] at h ⊢
          exact ih _ _ _ h
      · rw [if_neg h2] at h ⊢
        exact ih _ _ _ h

/-- C2 (amended): when the marker key — quoted or bare — is followed by
a colon (both regexes require the colon: without one there is no match
and the result is absent) and its opening brace starts a span whose
naive brace scan first returns to zero at the span's last character, and
the span is valid JSON, `extract_menu_data` returns exactly the parse of
the embedded span, nested braces included.  The first hypothesis pins
the regex search to this marker occurrence; the last two conjuncts state
the search order: the quoted-key pattern is consulted first, the
bare-key pattern only when the quoted one finds nothing. -/
theorem C2_extract_embedded_object :
    (∀ (pre mk obj post : String) (v : Json),
      markerStart (pre ++ mk ++ obj ++ post).data = some ((pre ++ mk).length) →
      scanBraces obj.data 0 0 = some (obj.length - 1) →
      Json.parse obj = some v →
      extract_menu_data (pre ++ mk ++ obj ++ post) = some v) ∧
    (∀ (cs : List Char) (s : Nat), findMarkerAux quotedKey cs 0 = some s →
      markerStart cs = some s) ∧
    (∀ cs : List Char, findMarkerAux quotedKey cs 0 = none →
      markerStart cs = findMarkerAux bareKey cs 0) := by
  refine ⟨?_, ?_, ?_⟩
  · intro pre mk obj post v hm hsc hp
    have hobj : obj.data ≠ [] := by
      intro hnil
      rw [hnil] at hsc
      simp [scanBraces] at hsc
    unfold extract_menu_data
    rw [hm]
    show sliceParse (pre ++ mk ++ obj ++ post).data ((pre ++ mk).length) = some v
    unfold sliceParse
    have hdata : (pre ++ mk ++ obj ++ post).data
        = (pre ++ mk).data ++ (obj.data ++ post.data) := by
      simp [String.data_append]
    rw [hdata]
    rw [show (pre ++ mk).length = ((pre ++ mk).data).length from rfl]
    rw [List.drop_left]
    rw [scanBraces_append obj.data post.data 0 0 _ hsc]
    show Json.parse (String.mk ((obj.data ++ post.data).take (obj.length - 1 + 1))) = some v
    have hlen2 : obj.length - 1 + 1 = obj.data.length := by
      have hne : obj.data.length ≠ 0 := fun hz => hobj (List.eq_nil_of_length_eq_zero hz)
      show obj.data.length - 1 + 1 = obj.data.length
      omega
    rw [hlen2, List.take_left]
    exact hp
  · intro cs s h
    unfold markerStart
    rw [h]
  · intro cs h
    unfold markerStart
    rw [h]

/-- C2, witness: a quoted-key page with a nested-brace object, and a
bare-key page, both extracted structurally intact. -/
theorem C2_extract_embedded_object_witness :
    extract_menu_data
        ("var a = \x7b" ++ "\"menuData\": " ++ "\x7b\"a\": \x7b\x7d\x7d" ++ "\x7d;") =
      some (Json.obj [("a", Json.obj [])]) ∧
    extract_menu_data ("x" ++ "menuData: " ++ "\x7b\x7d" ++ "") =
      some (Json.obj []) :=
  ⟨C2_extract_embedded_object.1 "var a = \x7b" "\"menuData\": " "\x7b\"a\": \x7b\x7d\x7d" "\x7d;"
      (Json.obj [("a", Json.obj [])]) rfl rfl rfl,
   C2_extract_embedded_object.1 "x" "menuData: " "\x7b\x7d" ""
      (Json.obj []) rfl rfl rfl⟩

/-- C2, counterexample to the claim as stated: per the claim the colon
is optional, but with the marker key followed directly by the object —
no colon — neither regex matches, and extraction is absent even though
the embedded span is well-formed JSON. -/
theorem C2_counterexample_colon_required :
    extract_menu_data "menuData \x7b\x7d" = none ∧
    Json.parse "\x7b\x7d" = some (Json.obj []) :=
  ⟨rfl, rfl⟩

theorem nodup_allEq_length_le {α : Type} (l : List α) (c : α)
    (hn : l.Nodup) (he : ∀ x ∈ l, x = c) : l.length ≤ 1 := by
  match l with
  | [] => simp
  | [x] => simp
  | x :: y :: t =>
    exfalso
    have hx : x = c := he x (by simp)
    have hy : y = c := he y (by simp)
    have : x ≠ y := by
      have := List.nodup_cons.mp hn
      intro hxy
      exact this.1 (by rw [hxy]; simp)
    exact this (hx.trans hy.symm)

theorem matchesFor_cases (ar : List MenuItem)
    (hnr : (ar.map MenuItem.id).Nodup) (e : MenuItem) :
    (matchesFor ar e = [] ∧ e.id ∉ ar.map MenuItem.id) ∨
    (∃ a, a ∈ ar ∧ a.id = e.id ∧ matchesFor ar e = [a]) := by
  have hsub : List.Sublist ((matchesFor ar e).map MenuItem.id) (ar.map MenuItem.id) :=
    List.Sublist.map MenuItem.id (List.filter_sublist ar)
  have hnd : ((matchesFor ar e).map MenuItem.id).Nodup := hnr.sublist hsub
  have hall : ∀ v ∈ (matchesFor ar e).map MenuItem.id, v = e.id := by
    intro v hv
    obtain ⟨a, ha, hva⟩ := List.mem_map.mp hv
    have := List.mem_filter.mp ha
    rw [← hva]
    exact of_decide_eq_true this.2
  have hlen : (matchesFor ar e).length ≤ 1 := by
    have := nodup_allEq_length_le _ _ hnd hall
    simpa using this
  match hm : matchesFor ar e with
  | [] =>
    left
    refine ⟨rfl, ?_⟩
    intro hmem
    obtain ⟨a, ha, hva⟩ := List.mem_map.mp hmem
    have : a ∈ matchesFor ar e :=
      List.mem_filter.mpr ⟨ha, decide_eq_true hva⟩
    rw [hm] at this
    exact List.not_mem_nil a this
  | a :: t =>
    right
    have ht : t = [] := by
      rw [hm] at hlen
      simp only [List.length_cons] at hlen
      exact List.eq_nil_of_length_eq_zero (by omega)
    subst ht
    have ha : a ∈ matchesFor ar e := by rw [hm]; simp
    have := List.mem_filter.mp ha
    exact ⟨a, this.1, of_decide_eq_true this.2, rfl⟩

theorem mergeLeftRows_singleton (ar : List MenuItem)
    (hnr : (ar.map MenuItem.id).Nodup) (e : MenuItem) :
    ∃ r, mergeLeftRows ar e = [r] ∧ r.id = e.id ∧
      ((r = rowLeft e ∧ e.id ∉ ar.map MenuItem.id) ∨
       ∃ a, a ∈ ar ∧ a.id = e.id ∧ r = rowBoth e a) := by
  rcases matchesFor_cases ar hnr e with ⟨hm, hnot⟩ | ⟨a, ha, hid, hm⟩
  · exact ⟨rowLeft e, by simp [mergeLeftRows, hm], rfl, Or.inl ⟨rfl, hnot⟩⟩
  · refine ⟨rowBoth e a, by simp [mergeLeftRows, hm], by simp [rowBoth], ?_⟩
    exact Or.inr ⟨a, ha, hid, rfl⟩

theorem leftPart_ids (en ar : List MenuItem) (hnr : (ar.map MenuItem.id).Nodup) :
    ((en.map (mergeLeftRows ar)).flatten).map MergedRow.id = en.map MenuItem.id := by
  induction en with
  | nil => rfl
  | cons e t ih =>
    obtain ⟨r, hr, hid, _⟩ := mergeLeftRows_singleton ar hnr e
    simp [hr, hid, ih]

theorem leftPart_mem (en ar : List MenuItem) (hnr : (ar.map MenuItem.id).Nodup) :
    ∀ r ∈ (en.map (mergeLeftRows ar)).flatten,
      ∃ e, e ∈ en ∧ r.id = e.id ∧
        (r = rowLeft e ∨ ∃ a, a ∈ ar ∧ a.id = e.id ∧ r = rowBoth e a) := by
  induction en with
  | nil => intro r hr; simp at hr
  | cons e t ih =>
    intro r hr
    obtain ⟨r', hr', hid', hcase'⟩ := mergeLeftRows_singleton ar hnr e
    rw [List.map_cons, List.flatten_cons, hr'] at hr
    rcases List.mem_append.mp hr with hl | hrest
    · have hre : r = r' := by simpa using hl
      subst hre
      refine ⟨e, by simp, hid', ?_⟩
      rcases hcase' with ⟨hrow, _⟩ | ⟨a, ha, hid, hrow⟩
      · exact Or.inl hrow
      · exact Or.inr ⟨a, ha, hid, hrow⟩
    · obtain ⟨e', he', hid, hcase⟩ := ih r hrest
      exact ⟨e', by simp [he'], hid, hcase⟩

theorem map_id_filter (p : Option Json → Bool) (l : List MenuItem) :
    (l.filter (fun a => p a.id)).map MenuItem.id = (l.map MenuItem.id).filter p := by
  induction l with
  | nil => rfl
  | cons a t ih =>
    cases h : p a.id <;> simp [List.filter_cons, h, ih]

/-- C1 (amended): for non-empty MenuItem sequences — a pandas frame
built from such a list carries the `id` column exactly when the list is
non-empty — whose id values are pairwise distinct within each sequence,
`merge_data` performs a full outer join on `id`: the row count equals
the cardinality of the union of the two id sets, every id from either
side appears exactly once, and the fields unmatched on either side are
null.  (Without the distinctness proviso pandas produces one row per
matching pair, refuting the stated count.) -/
theorem C1_merge_full_outer_join (en ar : List MenuItem)
    (hen : en ≠ []) (har : ar ≠ [])
    (hnl : (en.map MenuItem.id).Nodup) (hnr : (ar.map MenuItem.id).Nodup) :
    merge_data en ar = Except.ok (finalColumnsAll, outerMerge en ar) ∧
    (outerMerge en ar).length
      = ((en.map MenuItem.id).toFinset ∪ (ar.map MenuItem.id).toFinset).card ∧
    ((outerMerge en ar).map MergedRow.id).Nodup ∧
    (∀ v, v ∈ (outerMerge en ar).map MergedRow.id ↔
      v ∈ en.map MenuItem.id ∨ v ∈ ar.map MenuItem.id) ∧
    (∀ r ∈ outerMerge en ar, r.id ∉ ar.map MenuItem.id →
      r.section_ar = none ∧ r.name_ar = none ∧ r.description_ar = none) ∧
    (∀ r ∈ outerMerge en ar, r.id ∉ en.map MenuItem.id →
      r.section_en = none ∧ r.name_en = none ∧ r.description_en = none ∧
      r.price_en = none ∧ r.originalImage = none) := by
  have hids : (outerMerge en ar).map MergedRow.id
      = en.map MenuItem.id
        ++ (ar.map MenuItem.id).filter (fun v => decide (v ∉ en.map MenuItem.id)) := by
    unfold outerMerge rightOnly
    rw [List.map_append, leftPart_ids en ar hnr]
    congr 1
    rw [List.map_map]
    exact map_id_filter (fun v => decide (v ∉ en.map MenuItem.id)) ar
  have hlen : (outerMerge en ar).length
      = (en.map MenuItem.id).length
        + ((ar.map MenuItem.id).filter (fun v => decide (v ∉ en.map MenuItem.id))).length := by
    rw [show (outerMerge en ar).length = ((outerMerge en ar).map MergedRow.id).length from
      (List.length_map _ _).symm]
    rw [hids, List.length_append]
  have hsd : ((ar.map MenuItem.id).filter (fun v => decide (v ∉ en.map MenuItem.id))).toFinset
      = (ar.map MenuItem.id).toFinset \ (en.map MenuItem.id).toFinset := by
    ext v
    simp [List.mem_filter]
  have hcard : ((en.map MenuItem.id).toFinset ∪ (ar.map MenuItem.id).toFinset).card
      = (en.map MenuItem.id).length
        + ((ar.map MenuItem.id).filter (fun v => decide (v ∉ en.map MenuItem.id))).length := by
    rw [← Finset.union_sdiff_self_eq_union,
      Finset.card_union_of_disjoint Finset.disjoint_sdiff, ← hsd,
      List.toFinset_card_of_nodup hnl,
      List.toFinset_card_of_nodup (hnr.filter _)]
  have hmemcases : ∀ r ∈ outerMerge en ar,
      (∃ e, e ∈ en ∧ r.id = e.id ∧
        (r = rowLeft e ∨ ∃ a, a ∈ ar ∧ a.id = e.id ∧ r = rowBoth e a)) ∨
      (∃ a, a ∈ ar ∧ r = rowRight a) := by
    intro r hr
    rcases List.mem_append.mp hr with hl | hrt
    · exact Or.inl (leftPart_mem en ar hnr r hl)
    · obtain ⟨a, ha, hra⟩ := List.mem_map.mp hrt
      exact Or.inr ⟨a, (List.mem_filter.mp ha).1, hra.symm⟩
  refine ⟨?_, hlen.trans hcard.symm, ?_, ?_, ?_, ?_⟩
  · unfold merge_data
    rw [if_pos ⟨hen, har⟩]
  · rw [hids, List.nodup_append]
    refine ⟨hnl, hnr.filter _, ?_⟩
    intro v hvL hvF
    exact (of_decide_eq_true (List.mem_filter.mp hvF).2) hvL
  · intro v
    rw [hids]
    simp only [List.mem_append, List.mem_filter, decide_eq_true_eq]
    tauto
  · intro r hr hnot
    rcases hmemcases r hr with ⟨e, _, hid, hcase⟩ | ⟨a, ha, hra⟩
    · rcases hcase with hrow | ⟨a, ha, haid, hrow⟩
      · subst hrow
        exact ⟨rfl, rfl, rfl⟩
      · exfalso
        apply hnot
        rw [hid, ← haid]
        exact List.mem_map_of_mem MenuItem.id ha
    · exfalso
      apply hnot
      rw [hra]
      exact List.mem_map_of_mem MenuItem.id ha
  · intro r hr hnot
    rcases hmemcases r hr with ⟨e, he, hid, _⟩ | ⟨a, _, hra⟩
    · exfalso
      apply hnot
      rw [hid]
      exact List.mem_map_of_mem MenuItem.id he
    · subst hra
      exact ⟨rfl, rfl, rfl, rfl, rfl⟩

/-- C1, witness: one primary item joined against a matching and a
non-matching secondary item. -/
theorem C1_merge_full_outer_join_witness :
    merge_data [miBurger] [miBurgerAr, miPizzaAr]
      = Except.ok (finalColumnsAll, outerMerge [miBurger] [miBurgerAr, miPizzaAr]) ∧
    (outerMerge [miBurger] [miBurgerAr, miPizzaAr]).length
      = (([miBurger].map MenuItem.id).toFinset
          ∪ ([miBurgerAr, miPizzaAr].map MenuItem.id).toFinset).card ∧
    ((outerMerge [miBurger] [miBurgerAr, miPizzaAr]).map MergedRow.id).Nodup ∧
    (∀ v, v ∈ (outerMerge [miBurger] [miBurgerAr, miPizzaAr]).map MergedRow.id ↔
      v ∈ [miBurger].map MenuItem.id ∨ v ∈ [miBurgerAr, miPizzaAr].map MenuItem.id) ∧
    (∀ r ∈ outerMerge [miBurger] [miBurgerAr, miPizzaAr],
      r.id ∉ [miBurgerAr, miPizzaAr].map MenuItem.id →
      r.section_ar = none ∧ r.name_ar = none ∧ r.description_ar = none) ∧
    (∀ r ∈ outerMerge [miBurger] [miBurgerAr, miPizzaAr],
      r.id ∉ [miBurger].map MenuItem.id →
      r.section_en = none ∧ r.name_en = none ∧ r.description_en = none ∧
      r.price_en = none ∧ r.originalImage = none) :=
  C1_merge_full_outer_join [miBurger] [miBurgerAr, miPizzaAr]
    (by decide) (by decide) (by decide) (by decide)

/-- C1, counterexample to the claim as stated: with a duplicated primary
id, pandas' outer merge emits one row per matching pair — two rows here —
while the union of the id sets has one element, so the stated row count
fails without the per-sequence distinctness proviso. -/
theorem C1_counterexample_duplicate_ids :
    merge_data [miBurger, miBurger] [miBurgerAr]
      = Except.ok (finalColumnsAll, outerMerge [miBurger, miBurger] [miBurgerAr]) ∧
    (outerMerge [miBurger, miBurger] [miBurgerAr]).length = 2 ∧
    (([miBurger, miBurger].map MenuItem.id).toFinset
        ∪ ([miBurgerAr].map MenuItem.id).toFinset).card = 1 :=
  ⟨rfl, by decide, by decide⟩
